import Mathlib

/-!
Verification of the BookNest client-side room-filter and availability-overlay
engine, shallowly embedded from the React sources (`src/Context.js` and the
RoomsFilter component).  JavaScript numbers are modelled by an explicit type
with NaN and the two infinities; strings stay strings; the component state is
an explicit record and every handler is a state transformer.
-/

/-- A JavaScript number: a finite value (modelled exactly as a rational),
NaN, or one of the two infinities.  NaN propagates through `Math.min` /
`Math.max` and makes every comparison false, exactly as in JS. -/
inductive JsNum where
  | q (x : ℚ)
  | nan
  | inf
  | ninf
deriving DecidableEq

/-- JS truthiness of a number: `0` and `NaN` are falsy, everything else
(including the infinities) is truthy. -/
def JsNum.truthy : JsNum → Bool
  | .q x => x ≠ 0
  | .nan => false
  | .inf => true
  | .ninf => true

/-- JS `<=` on numbers: false whenever either side is NaN. -/
def JsNum.le : JsNum → JsNum → Bool
  | .nan, _ => false
  | _, .nan => false
  | .ninf, _ => true
  | _, .inf => true
  | .inf, _ => false
  | _, .ninf => false
  | .q x, .q y => x ≤ y

/-- JS `<` on numbers: false whenever either side is NaN. -/
def JsNum.lt : JsNum → JsNum → Bool
  | .nan, _ => false
  | _, .nan => false
  | .inf, _ => false
  | _, .inf => true
  | _, .ninf => false
  | .ninf, _ => true
  | .q x, .q y => x < y

/-- JS `Math.max` on two numbers: NaN-contaminating, otherwise the larger. -/
def JsNum.max2 : JsNum → JsNum → JsNum
  | .nan, _ => .nan
  | _, .nan => .nan
  | .inf, _ => .inf
  | _, .inf => .inf
  | .ninf, b => b
  | a, .ninf => a
  | .q x, .q y => .q (max x y)

/-- JS `Math.min` on two numbers: NaN-contaminating, otherwise the smaller. -/
def JsNum.min2 : JsNum → JsNum → JsNum
  | .nan, _ => .nan
  | _, .nan => .nan
  | .ninf, _ => .ninf
  | _, .ninf => .ninf
  | .inf, b => b
  | a, .inf => a
  | .q x, .q y => .q (min x y)

/-- JS `Math.max(...list)`: the empty call returns `-Infinity`. -/
def jsMaxList (l : List JsNum) : JsNum := l.foldl JsNum.max2 .ninf

/-- JS `Math.min(...list)`: the empty call returns `Infinity`. -/
def jsMinList (l : List JsNum) : JsNum := l.foldl JsNum.min2 .inf

/-- JS `a || b` on numbers: `a` when truthy, else `b`. -/
def JsNum.orElse : JsNum → JsNum → JsNum
  | a, b => if a.truthy then a else b

/-- Numeric value of a list of decimal digit characters. -/
def digitsToNat (ds : List Char) : ℕ :=
  ds.foldl (fun n c => 10 * n + (c.toNat - Char.toNat '0')) 0

/-- JS `parseFloat`, restricted to the shapes that occur in this codebase's
data: optional leading spaces, optional sign, decimal digits with an optional
fraction part; any trailing garbage is ignored.  Exponents and the literal
`Infinity` are not modelled.  NaN when not even one digit can be read. -/
def jsParseFloat (s : String) : JsNum :=
  let cs := s.data.dropWhile (fun c => c = ' ')
  let sign : Bool := cs.head? = some '-'
  let cs1 := if cs.head? = some '-' ∨ cs.head? = some '+' then cs.tail else cs
  let intPart := cs1.takeWhile Char.isDigit
  let rest := cs1.dropWhile Char.isDigit
  let fracPart := if rest.head? = some '.' then rest.tail.takeWhile Char.isDigit
    else []
  if intPart = [] ∧ fracPart = [] then .nan
  else
    let v : ℚ := mkRat (digitsToNat (intPart ++ fracPart))
      ((10 : ℕ) ^ fracPart.length)
    .q (if sign then -v else v)

/-- JS `parseInt` (radix 10), same restriction: optional spaces, optional
sign, decimal digits; trailing garbage ignored; NaN when no digit. -/
def jsParseInt (s : String) : JsNum :=
  let cs := s.data.dropWhile (fun c => c = ' ')
  let sign : Bool := cs.head? = some '-'
  let cs1 := if cs.head? = some '-' ∨ cs.head? = some '+' then cs.tail else cs
  let intPart := cs1.takeWhile Char.isDigit
  if intPart = [] then .nan
  else
    let v : ℚ := mkRat (digitsToNat intPart) 1
    .q (if sign then -v else v)

/-- Truncation of a rational toward zero (the integer `parseInt` recovers
from the decimal rendering of a finite JS number); `Int` division already
rounds toward zero. -/
def ratTrunc (x : ℚ) : ℤ := x.num / (x.den : ℤ)

/-- JS `parseInt(n)` applied to a number `n`: JS stringifies `n` and parses
the result.  On finite values this truncates toward zero (exact for the
integer-valued sizes this codebase stores); `Infinity` and NaN stringify to
words `parseInt` cannot read, giving NaN. -/
def JsNum.parseIntOfNum : JsNum → JsNum
  | .q x => .q (ratTrunc x : ℤ)
  | .nan => .nan
  | .inf => .nan
  | .ninf => .nan

/-- A JS primitive value as stored in the component state: the fields this
embedding tracks hold strings, numbers, booleans or null. -/
inductive JsVal where
  | vstr (s : String)
  | vnum (n : JsNum)
  | vbool (b : Bool)
  | vnull
deriving DecidableEq

/-- JS truthiness of a primitive value. -/
def JsVal.truthy : JsVal → Bool
  | .vstr s => s ≠ ""
  | .vnum n => n.truthy
  | .vbool b => b
  | .vnull => false

/-- JS `parseFloat(v)`: a string is parsed directly; a number round-trips
through its decimal rendering unchanged (`parseFloat(String(n)) = n`, with
`"Infinity"` parsed back and `"NaN"` giving NaN); booleans and null render
to words with no digits, giving NaN. -/
def JsVal.parseFloatOf : JsVal → JsNum
  | .vstr s => jsParseFloat s
  | .vnum n => n
  | .vbool _ => .nan
  | .vnull => .nan

/-- Remove every comma, embedding `str.replace(/,/g, '')`. -/
def stripCommas (s : String) : String :=
  String.mk (s.data.filter (fun c => c ≠ ','))

/-- Keep only decimal digits, embedding `str.replace(/[^\d]/g, '')`. -/
def stripNonDigits (s : String) : String :=
  String.mk (s.data.filter Char.isDigit)

/-- Parsed nightly price of a raw price string, embedding
`parseFloat(room.price_per_night.replace(/,/g, ''))` from `Context.js`. -/
def parsePrice (s : String) : JsNum := jsParseFloat (stripCommas s)

/-- Parsed room size of a raw size string, embedding
`parseInt(sizeStr.replace(/[^\d]/g, '')) || 0` from `Context.js`. -/
def parseSize (s : String) : JsNum :=
  (jsParseInt (stripNonDigits s)).orElse (.q 0)

/-- A room record as delivered by `GET /hotel/get_room_list/`, restricted to
the fields the filter engine reads. -/
structure Room where
  id : ℤ
  category_name : String
  capacity : JsNum
  price_per_night : String
  room_size : String
  is_booked : Bool
  featured : Bool
deriving DecidableEq

/-- A checked-in-room record as delivered by the checked-in-rooms endpoint,
restricted to the fields the search reads. -/
structure CheckedInRoom where
  room_id : ℤ
  room_slug : String
deriving DecidableEq

/-- The slice of the `Context` component state that the filter engine and
the checked-in-rooms search read and write. -/
structure HotelState where
  rooms : List Room
  sortedRooms : List Room
  category_name : String
  capacity : String
  price_per_night : JsVal
  maxPrice : JsNum
  minPrice : JsNum
  maxRoomSize : JsNum
  minRoomSize : JsNum
  reserved : Bool
  searchKey : String
  dateFilteredRoomIds : Option (List ℤ)
  checkedInRooms : List CheckedInRoom
  filteredCheckedInRooms : List CheckedInRoom
deriving DecidableEq

/-- The recomputation pipeline of `filterRooms` in `Context.js`: start from
a copy of `rooms`, then successively restrict by date overlay, category,
capacity, price ceiling, room-size range and availability, each stage
guarded exactly as in the source. -/
def filterRoomsCompute (st : HotelState) : List Room :=
  let l0 := st.rooms
  let l1 := match st.dateFilteredRoomIds with
    | some ids => l0.filter (fun r => ids.contains r.id)
    | none => l0
  let l2 := if st.category_name ≠ "all" then
      l1.filter (fun r => r.category_name = st.category_name)
    else l1
  let l3 := if st.capacity ≠ "" ∧ st.capacity ≠ "all" then
      l2.filter (fun r => (jsParseInt st.capacity).le r.capacity)
    else l2
  let l4 := if st.price_per_night.truthy then
      l3.filter (fun r =>
        (parsePrice r.price_per_night).le st.price_per_night.parseFloatOf)
    else l3
  let l5 := if st.minRoomSize.truthy ∧ st.maxRoomSize.truthy then
      l4.filter (fun r =>
        let roomSizeNum := parseSize r.room_size
        let minSize := st.minRoomSize.parseIntOfNum.orElse (.q 0)
        let maxSize := st.maxRoomSize.parseIntOfNum.orElse (.q 999)
        minSize.le roomSizeNum && roomSizeNum.le maxSize)
    else l4
  let l6 := if st.reserved then l5.filter (fun r => r.is_booked = false) else l5
  l6

/-- `filterRooms` as a state transformer: store the recomputed list in
`sortedRooms`. -/
def filterRooms (st : HotelState) : HotelState :=
  { st with sortedRooms := filterRoomsCompute st }

/-- `filterByDateAvailability(availableRoomIds)` from `Context.js`: install
the overlay (or `null`) and recompute. -/
def filterByDateAvailability (ids : Option (List ℤ)) (st : HotelState) :
    HotelState :=
  filterRooms { st with dateFilteredRoomIds := ids }

/-- `clearAllFilters` from `Context.js`: reset the four predicate inputs and
the overlay, then recompute. -/
def clearAllFilters (st : HotelState) : HotelState :=
  filterRooms { st with
    category_name := "all"
    capacity := "all"
    price_per_night := .vnum st.maxPrice
    reserved := false
    dateFilteredRoomIds := none }

/-- The state `componentDidMount` installs after a successful catalog fetch
(`Context.js`): the catalog, the same list as the initial visible list, the
four numeric aggregates over parsed prices and sizes, the default filter
inputs, and the price ceiling primed to the maximum price. -/
def initState (roomsData : List Room) : HotelState :=
  let minPrice := jsMinList (roomsData.map (fun r => parsePrice r.price_per_night))
  let maxPrice := jsMaxList (roomsData.map (fun r => parsePrice r.price_per_night))
  let maxRoomSize := jsMaxList (roomsData.map (fun r => parseSize r.room_size))
  let minRoomSize := jsMinList (roomsData.map (fun r => parseSize r.room_size))
  { rooms := roomsData
    sortedRooms := roomsData
    category_name := "all"
    capacity := "all"
    price_per_night := .vnum maxPrice
    maxPrice := maxPrice
    minPrice := minPrice
    maxRoomSize := maxRoomSize
    minRoomSize := minRoomSize
    reserved := false
    searchKey := ""
    dateFilteredRoomIds := none
    checkedInRooms := []
    filteredCheckedInRooms := [] }

/-- `handleChange` fired by the category select: store the value, then run
the `filterRooms` callback. -/
def setCategory (s : String) (st : HotelState) : HotelState :=
  filterRooms { st with category_name := s }

/-- `handleChange` fired by the capacity select. -/
def setCapacity (s : String) (st : HotelState) : HotelState :=
  filterRooms { st with capacity := s }

/-- `handleChange` fired by the price range input; range inputs report their
value as a string. -/
def setPriceCeiling (s : String) (st : HotelState) : HotelState :=
  filterRooms { st with price_per_night := .vstr s }

/-- `handleChange` fired by the availability checkbox; checkboxes report
`event.target.checked`, a boolean. -/
def setReserved (b : Bool) (st : HotelState) : HotelState :=
  filterRooms { st with reserved := b }

/-- One UI interaction on the filter panel (the RoomsFilter component wired
to `handleChange`, `filterByDateAvailability` and `clearAllFilters`).  The
price step carries the constraint the rendered range input enforces through
its `min={minPrice}` / `max={maxPrice}` attributes: the browser only emits
values inside that interval. -/
inductive UiStep : HotelState → HotelState → Prop where
  | category (st : HotelState) (s : String) : UiStep st (setCategory s st)
  | capacity (st : HotelState) (s : String) : UiStep st (setCapacity s st)
  | price (st : HotelState) (s : String)
      (hlo : st.minPrice.le (jsParseFloat s) = true)
      (hhi : (jsParseFloat s).le st.maxPrice = true) :
      UiStep st (setPriceCeiling s st)
  | availToggle (st : HotelState) (b : Bool) : UiStep st (setReserved b st)
  | overlay (st : HotelState) (ids : Option (List ℤ)) :
      UiStep st (filterByDateAvailability ids st)
  | clear (st : HotelState) : UiStep st (clearAllFilters st)

/-- States reachable from a given state by UI interactions. -/
def Reachable (st st' : HotelState) : Prop := Relation.ReflTransGen UiStep st st'

/-- The per-object update `handleBook` performs on a room. -/
def bookRoom (id : ℤ) (r : Room) : Room :=
  if r.id = id then { r with is_booked := true } else r

/-- `handleBook(id)` from `Context.js`: mutate `is_booked` on the matching
room objects in place and trigger no recomputation.  The in-place mutation
of shared room objects is rendered in this value-level embedding by applying
the update to both lists that hold references to them (`sortedRooms` is an
array of the same objects).  No other field changes. -/
def handleBook (id : ℤ) (st : HotelState) : HotelState :=
  { st with
    rooms := st.rooms.map (bookRoom id)
    sortedRooms := st.sortedRooms.map (bookRoom id) }

/-- `room.room_slug.toString().includes(searchKey)` from `Context.js`. -/
def slugIncludes (slug key : String) : Bool :=
  decide (key.data <:+: slug.data)

/-- `filterCheckedInRooms` from `Context.js`: a non-empty search key narrows
the previous `filteredCheckedInRooms`; an empty key resets to the full
`checkedInRooms`. -/
def filterCheckedInRooms (st : HotelState) : HotelState :=
  if st.searchKey ≠ "" then
    let searchedRooms := st.filteredCheckedInRooms.filter
      (fun r => slugIncludes r.room_slug st.searchKey)
    { st with filteredCheckedInRooms := searchedRooms }
  else
    { st with filteredCheckedInRooms := st.checkedInRooms }

/-- `handleSearchKey` from `Context.js`: store the key, then run the
`filterCheckedInRooms` callback. -/
def handleSearchKey (key : String) (st : HotelState) : HotelState :=
  filterCheckedInRooms { st with searchKey := key }

/-- Outcome of the local phase of `checkRoomAvailability` in the RoomsFilter
component: rejected for a missing date, rejected for a non-increasing date
pair, or fell through to the network request. -/
inductive AvailOutcome where
  | rejectedMissing
  | rejectedOrder
  | networkCall
deriving DecidableEq

/-- The local validation of `checkRoomAvailability` (RoomsFilter component):
alert-and-return when a date is missing, alert-and-return when
`new Date(checkIn) >= new Date(checkOut)`, otherwise proceed to the network
request.  A date input's value is the empty string or a parseable date,
modelled as `Option` of its timestamp; both rejection paths leave the
component state untouched. -/
def checkRoomAvailability (st : HotelState) (checkIn checkOut : Option ℤ) :
    AvailOutcome × HotelState :=
  match checkIn, checkOut with
  | none, _ => (.rejectedMissing, st)
  | some _, none => (.rejectedMissing, st)
  | some ci, some co =>
    if co ≤ ci then (.rejectedOrder, st) else (.networkCall, st)

/-- JS `str.split('.')` on the character list: splits at every dot, keeping
empty segments, so a string with no dot yields one segment. -/
def splitOnDot : List Char → List (List Char)
  | [] => [[]]
  | c :: rest =>
    match splitOnDot rest with
    | [] => [[c]]
    | h :: t => if c = '.' then [] :: h :: t else (c :: h) :: t

/-- The segments of `token.split('.')`, as strings. -/
def tokenSegments (t : String) : List String :=
  (splitOnDot t.data).map String.mk

/-- The JWT payload slice `isTokenExpired` reads: its `exp` field, absent
(`undefined`) when the decoded JSON object lacks one. -/
structure JwtPayload where
  exp : Option ℚ
deriving DecidableEq

/-- JS `payload.exp < currentTime`: comparing `undefined` with a number is
false. -/
def jsUndefLt (a : Option ℚ) (b : ℚ) : Bool :=
  match a with
  | none => false
  | some x => decide (x < b)

/-- `isTokenExpired` from `Context.js`.  `decode` is the ambient
`JSON.parse(atob(·))` of the JS runtime, `none` when either builtin throws;
`currentTime` is `Date.now() / 1000`; an absent (`null`/`undefined`) token
is `none` and the empty string is likewise falsy.  When the token has no
second dot-separated segment, indexing yields `undefined` and
`atob("undefined")` throws (its length is 9, which is 1 mod 4), so the
catch returns true. -/
def isTokenExpired (decode : String → Option JwtPayload) (currentTime : ℚ)
    (token : Option String) : Bool :=
  match token with
  | none => true
  | some t =>
    if t = "" then true
    else
      match (tokenSegments t).get? 1 with
      | none => true
      | some seg =>
        match decode seg with
        | none => true
        | some payload => jsUndefLt payload.exp currentTime

/-- Number of dot-separated segments of a token string. -/
def numSegments (t : String) : ℕ := (tokenSegments t).length

/-- The ambient `JSON.parse(atob(·))` evaluated at the payload segment the
witnesses below use: the base64 string eyJleHAiOjk5OX0 decodes to the JSON
object whose `exp` field is 999 (checkable by hand from the base64 table);
the other strings this development feeds in fail to decode. -/
def decodeEnv : String → Option JwtPayload := fun s =>
  if s = "eyJleHAiOjk5OX0" then some ⟨some 999⟩ else none

/-- The filter predicate exactly as the spec's section 4.2 words it: the
conjunction of the four sub-predicates, with the price predicate
unconditionally `parsedPrice(room) <= numeric(priceCeiling)`.  Written from
the spec, to be compared with the code's `filterRoomsCompute`. -/
def specFilterPred (st : HotelState) (r : Room) : Bool :=
  (decide (st.category_name = "all") || decide (r.category_name = st.category_name))
  && (decide (st.capacity = "all") || (jsParseInt st.capacity).le r.capacity)
  && (parsePrice r.price_per_night).le st.price_per_night.parseFloatOf
  && (!st.reserved || decide (r.is_booked = false))

/-- The room-level predicate the code's pipeline actually computes: each
stage of `filterRoomsCompute` folded into one boolean, with every stage
guard kept. -/
def codeFilterPred (st : HotelState) (r : Room) : Bool :=
  (match st.dateFilteredRoomIds with
    | some ids => ids.contains r.id
    | none => true)
  && (if st.category_name ≠ "all" then decide (r.category_name = st.category_name)
      else true)
  && (if st.capacity ≠ "" ∧ st.capacity ≠ "all" then
        (jsParseInt st.capacity).le r.capacity
      else true)
  && (if st.price_per_night.truthy then
        (parsePrice r.price_per_night).le st.price_per_night.parseFloatOf
      else true)
  && (if st.minRoomSize.truthy ∧ st.maxRoomSize.truthy then
        (st.minRoomSize.parseIntOfNum.orElse (.q 0)).le (parseSize r.room_size)
          && (parseSize r.room_size).le
            (st.maxRoomSize.parseIntOfNum.orElse (.q 999))
      else true)
  && (if st.reserved then decide (r.is_booked = false) else true)


theorem filterRoomsCompute_eq_filter (st : HotelState) :
    filterRoomsCompute st = st.rooms.filter (codeFilterPred st) := by
  unfold filterRoomsCompute codeFilterPred
  rcases hov : st.dateFilteredRoomIds with _ | ids <;>
  by_cases h2 : st.category_name ≠ "all" <;>
  by_cases h3 : st.capacity ≠ "" ∧ st.capacity ≠ "all" <;>
  by_cases h4 : st.price_per_night.truthy = true <;>
  by_cases h5 : st.minRoomSize.truthy = true ∧ st.maxRoomSize.truthy = true <;>
  by_cases h6 : st.reserved = true <;>
  simp [h2, h3, h4, h5, h6, List.filter_filter, List.filter_true] <;>
  (apply List.filter_congr; intro r hr) <;>
  simp [Bool.and_assoc, Bool.and_comm, Bool.and_left_comm]

theorem JsNum.le_refl (a : JsNum) (h : a ≠ .nan) : a.le a = true := by
  cases a <;> simp [JsNum.le] at h ⊢

theorem JsNum.le_trans {a b c : JsNum} (hab : a.le b = true)
    (hbc : b.le c = true) : a.le c = true := by
  cases a <;> cases b <;> cases c <;>
    simp [JsNum.le] at hab hbc ⊢ <;> exact hab.trans hbc

theorem JsNum.max2_choice (a b : JsNum) : a.max2 b = a ∨ a.max2 b = b := by
  cases a <;> cases b
  case q.q x y => rcases max_choice x y with h | h <;> simp [JsNum.max2, h]
  all_goals simp [JsNum.max2]

theorem JsNum.min2_choice (a b : JsNum) : a.min2 b = a ∨ a.min2 b = b := by
  cases a <;> cases b
  case q.q x y => rcases min_choice x y with h | h <;> simp [JsNum.min2, h]
  all_goals simp [JsNum.min2]

theorem JsNum.max2_ne_nan {a b : JsNum} (ha : a ≠ .nan) (hb : b ≠ .nan) :
    a.max2 b ≠ .nan := by
  cases a <;> cases b <;> simp [JsNum.max2] at ha hb ⊢

theorem JsNum.min2_ne_nan {a b : JsNum} (ha : a ≠ .nan) (hb : b ≠ .nan) :
    a.min2 b ≠ .nan := by
  cases a <;> cases b <;> simp [JsNum.min2] at ha hb ⊢

theorem JsNum.le_max2_left {a b : JsNum} (ha : a ≠ .nan) (hb : b ≠ .nan) :
    a.le (a.max2 b) = true := by
  cases a <;> cases b <;> simp [JsNum.max2, JsNum.le] at ha hb ⊢

theorem JsNum.le_max2_right {a b : JsNum} (ha : a ≠ .nan) (hb : b ≠ .nan) :
    b.le (a.max2 b) = true := by
  cases a <;> cases b <;> simp [JsNum.max2, JsNum.le] at ha hb ⊢

theorem JsNum.min2_le_left {a b : JsNum} (ha : a ≠ .nan) (hb : b ≠ .nan) :
    (a.min2 b).le a = true := by
  cases a <;> cases b <;> simp [JsNum.min2, JsNum.le] at ha hb ⊢

theorem JsNum.min2_le_right {a b : JsNum} (ha : a ≠ .nan) (hb : b ≠ .nan) :
    (a.min2 b).le b = true := by
  cases a <;> cases b <;> simp [JsNum.min2, JsNum.le] at ha hb ⊢

theorem JsNum.max2_ninf_left (b : JsNum) : JsNum.max2 .ninf b = b := by
  cases b <;> simp [JsNum.max2]

theorem foldl_max2_ge : ∀ (l : List JsNum) (a : JsNum), JsNum.nan ∉ l →
    a ≠ .nan → ∀ x, (x = a ∨ x ∈ l) → x.le (l.foldl JsNum.max2 a) = true := by
  intro l
  induction l with
  | nil =>
    intro a _ ha x hx
    simp at hx
    subst hx
    exact JsNum.le_refl _ ha
  | cons b t ih =>
    intro a hl ha x hx
    have hb : b ≠ .nan := by rintro rfl; exact hl (List.mem_cons_self _ _)
    have ht : JsNum.nan ∉ t := fun h => hl (List.mem_cons_of_mem _ h)
    have hacc : JsNum.max2 a b ≠ .nan := JsNum.max2_ne_nan ha hb
    simp only [List.foldl_cons]
    rcases hx with rfl | hx
    · exact JsNum.le_trans (JsNum.le_max2_left ha hb)
        (ih _ ht hacc _ (Or.inl rfl))
    · rcases List.mem_cons.mp hx with rfl | hx
      · exact JsNum.le_trans (JsNum.le_max2_right ha hb)
          (ih _ ht hacc _ (Or.inl rfl))
      · exact ih _ ht hacc _ (Or.inr hx)

theorem foldl_min2_le : ∀ (l : List JsNum) (a : JsNum), JsNum.nan ∉ l →
    a ≠ .nan → ∀ x, (x = a ∨ x ∈ l) → (l.foldl JsNum.min2 a).le x = true := by
  intro l
  induction l with
  | nil =>
    intro a _ ha x hx
    simp at hx
    subst hx
    exact JsNum.le_refl _ ha
  | cons b t ih =>
    intro a hl ha x hx
    have hb : b ≠ .nan := by rintro rfl; exact hl (List.mem_cons_self _ _)
    have ht : JsNum.nan ∉ t := fun h => hl (List.mem_cons_of_mem _ h)
    have hacc : JsNum.min2 a b ≠ .nan := JsNum.min2_ne_nan ha hb
    simp only [List.foldl_cons]
    rcases hx with rfl | hx
    · exact JsNum.le_trans (ih _ ht hacc _ (Or.inl rfl))
        (JsNum.min2_le_left ha hb)
    · rcases List.mem_cons.mp hx with rfl | hx
      · exact JsNum.le_trans (ih _ ht hacc _ (Or.inl rfl))
          (JsNum.min2_le_right ha hb)
      · exact ih _ ht hacc _ (Or.inr hx)

theorem foldl_max2_nan (l : List JsNum) (a : JsNum)
    (h : a = .nan ∨ JsNum.nan ∈ l) : l.foldl JsNum.max2 a = .nan := by
  induction l generalizing a with
  | nil => simpa using h
  | cons b t ih =>
    simp only [List.foldl_cons]
    rcases h with rfl | h
    · exact ih _ (Or.inl (by cases b <;> simp [JsNum.max2]))
    · rcases List.mem_cons.mp h with rfl | h
      · exact ih _ (Or.inl (by cases a <;> simp [JsNum.max2]))
      · exact ih _ (Or.inr h)

theorem foldl_max2_acc_ne_ninf (l : List JsNum) (a : JsNum)
    (hl : ∀ x ∈ l, x ≠ .ninf) (ha : a ≠ .ninf) :
    l.foldl JsNum.max2 a ≠ .ninf := by
  induction l generalizing a with
  | nil => simpa using ha
  | cons b t ih =>
    simp only [List.foldl_cons]
    have hb : b ≠ .ninf := hl b (List.mem_cons_self _ _)
    have : JsNum.max2 a b ≠ .ninf := by
      rcases JsNum.max2_choice a b with h | h <;> rw [h] <;> assumption
    exact ih _ (fun x hx => hl x (List.mem_cons_of_mem _ hx)) this

theorem foldl_max2_ne_ninf (l : List JsNum) (a : JsNum) (hne : l ≠ [])
    (hl : ∀ x ∈ l, x ≠ .ninf) : l.foldl JsNum.max2 a ≠ .ninf := by
  cases l with
  | nil => exact absurd rfl hne
  | cons b t =>
    simp only [List.foldl_cons]
    have hb : b ≠ .ninf := hl b (List.mem_cons_self _ _)
    have ht : ∀ x ∈ t, x ≠ .ninf := fun x hx => hl x (List.mem_cons_of_mem _ hx)
    by_cases ha : a = .ninf
    · subst ha
      rw [JsNum.max2_ninf_left]
      exact foldl_max2_acc_ne_ninf t b ht hb
    · have : JsNum.max2 a b ≠ .ninf := by
        rcases JsNum.max2_choice a b with h | h <;> rw [h] <;> assumption
      exact foldl_max2_acc_ne_ninf t _ ht this

theorem foldl_max2_mem (l : List JsNum) (a : JsNum) :
    l.foldl JsNum.max2 a = a ∨ l.foldl JsNum.max2 a ∈ l := by
  induction l generalizing a with
  | nil => simp
  | cons b t ih =>
    simp only [List.foldl_cons]
    rcases ih (JsNum.max2 a b) with h | h
    · rcases JsNum.max2_choice a b with h2 | h2
      · left; rw [h, h2]
      · right; rw [h, h2]; exact List.mem_cons_self _ _
    · right; exact List.mem_cons_of_mem _ h

theorem foldl_min2_mem (l : List JsNum) (a : JsNum) :
    l.foldl JsNum.min2 a = a ∨ l.foldl JsNum.min2 a ∈ l := by
  induction l generalizing a with
  | nil => simp
  | cons b t ih =>
    simp only [List.foldl_cons]
    rcases ih (JsNum.min2 a b) with h | h
    · rcases JsNum.min2_choice a b with h2 | h2
      · left; rw [h, h2]
      · right; rw [h, h2]; exact List.mem_cons_self _ _
    · right; exact List.mem_cons_of_mem _ h

theorem jsParseInt_digits (l : List Char)
    (hdig : ∀ c ∈ l, Char.isDigit c = true) :
    jsParseInt (String.mk l)
      = if l = [] then .nan else .q (mkRat (digitsToNat l) 1) := by
  unfold jsParseInt
  have hdata : (String.mk l).data = l := rfl
  rw [hdata]
  cases l with
  | nil => simp
  | cons d t =>
    have hd : d.isDigit = true := hdig d (List.mem_cons_self _ _)
    have hspace : ¬ d = ' ' := by
      intro h
      subst h
      exact absurd hd (by decide)
    have hminus : ¬ d = '-' := by
      intro h
      subst h
      exact absurd hd (by decide)
    have hplus : ¬ d = '+' := by
      intro h
      subst h
      exact absurd hd (by decide)
    have hdrop : (d :: t).dropWhile (fun c => decide (c = ' ')) = d :: t := by
      simp [List.dropWhile_cons, hspace]
    have htake : (d :: t).takeWhile Char.isDigit = d :: t := by
      rw [List.takeWhile_eq_self_iff]
      exact hdig
    rw [hdrop]
    simp only [List.head?_cons, Option.some.injEq, hminus, hplus, or_self,
      if_false, htake, decide_eq_false]
    simp [hminus]

theorem parseSize_eq (s : String) :
    parseSize s = .q (digitsToNat (s.data.filter Char.isDigit)) := by
  unfold parseSize stripNonDigits
  have hdig : ∀ c ∈ s.data.filter Char.isDigit, Char.isDigit c = true :=
    fun c hc => (List.mem_filter.mp hc).2
  rw [jsParseInt_digits _ hdig]
  rcases h : s.data.filter Char.isDigit with _ | ⟨d, t⟩
  · simp [JsNum.orElse, JsNum.truthy, digitsToNat]
  · simp only [if_neg (List.cons_ne_nil d t), Rat.mkRat_one, JsNum.orElse,
      JsNum.truthy]
    split
    · push_cast
      rfl
    · rename_i hz
      simp at hz
      rw [hz]
      norm_num

theorem reachable_frame {st0 st : HotelState} (h : Reachable st0 st) :
    st.rooms = st0.rooms ∧ st.maxPrice = st0.maxPrice ∧
    st.minPrice = st0.minPrice ∧ st.maxRoomSize = st0.maxRoomSize ∧
    st.minRoomSize = st0.minRoomSize := by
  induction h with
  | refl => exact ⟨rfl, rfl, rfl, rfl, rfl⟩
  | tail hr hstep ih =>
    cases hstep <;>
      simpa [setCategory, setCapacity, setPriceCeiling, setReserved,
        filterByDateAvailability, clearAllFilters, filterRooms] using ih

theorem ratTrunc_natCast (n : ℕ) : ratTrunc (n : ℚ) = n := by
  simp [ratTrunc]

theorem parseSize_q_nat (s : String) :
    ∃ n : ℕ, parseSize s = .q (n : ℚ) :=
  ⟨digitsToNat (s.data.filter Char.isDigit), parseSize_eq s⟩

theorem filterRoomsCompute_cleared (st : HotelState)
    (hcat : st.category_name = "all") (hcap : st.capacity = "all")
    (hov : st.dateFilteredRoomIds = none) (hres : st.reserved = false)
    (hprice : ∀ r ∈ st.rooms, st.price_per_night.truthy = true →
        (parsePrice r.price_per_night).le st.price_per_night.parseFloatOf = true)
    (hsize : ∀ r ∈ st.rooms,
        st.minRoomSize.truthy = true → st.maxRoomSize.truthy = true →
        ((st.minRoomSize.parseIntOfNum.orElse (.q 0)).le (parseSize r.room_size)
          && (parseSize r.room_size).le
            (st.maxRoomSize.parseIntOfNum.orElse (.q 999))) = true) :
    filterRoomsCompute st = st.rooms := by
  rw [filterRoomsCompute_eq_filter]
  rw [List.filter_eq_self]
  intro r hr
  unfold codeFilterPred
  rw [hcat, hcap, hov, hres]
  by_cases hp : st.price_per_night.truthy = true <;>
  by_cases hs1 : st.minRoomSize.truthy = true <;>
  by_cases hs2 : st.maxRoomSize.truthy = true <;>
  simp [hp, hs1, hs2, hprice r hr, hsize r hr]

theorem sizes_q_nat (rooms : List Room) :
    ∀ x ∈ rooms.map (fun r => parseSize r.room_size), ∃ n : ℕ, x = .q (n : ℚ) := by
  intro x hx
  rcases List.mem_map.mp hx with ⟨r, _, rfl⟩
  exact parseSize_q_nat _

theorem sizes_no_nan (rooms : List Room) :
    JsNum.nan ∉ rooms.map (fun r => parseSize r.room_size) := by
  intro h
  rcases sizes_q_nat rooms _ h with ⟨n, hn⟩
  exact JsNum.noConfusion hn

theorem sizes_no_ninf (rooms : List Room) :
    ∀ x ∈ rooms.map (fun r => parseSize r.room_size), x ≠ .ninf := by
  intro x hx
  rcases sizes_q_nat rooms _ hx with ⟨n, rfl⟩
  exact fun h => JsNum.noConfusion h

theorem jsMinList_le (l : List JsNum) (hnan : JsNum.nan ∉ l) {x : JsNum}
    (hx : x ∈ l) : (jsMinList l).le x = true :=
  foldl_min2_le l .inf hnan (by simp) x (Or.inr hx)

theorem jsMaxList_ge (l : List JsNum) (hnan : JsNum.nan ∉ l) {x : JsNum}
    (hx : x ∈ l) : x.le (jsMaxList l) = true :=
  foldl_max2_ge l .ninf hnan (by simp) x (Or.inr hx)

theorem jsMaxList_nan (l : List JsNum) (h : JsNum.nan ∈ l) :
    jsMaxList l = .nan :=
  foldl_max2_nan l .ninf (Or.inr h)

theorem jsMaxList_mem (l : List JsNum) :
    jsMaxList l = .ninf ∨ jsMaxList l ∈ l :=
  foldl_max2_mem l .ninf

theorem jsMinList_mem (l : List JsNum) :
    jsMinList l = .inf ∨ jsMinList l ∈ l :=
  foldl_min2_mem l .inf

theorem jsMaxList_ne_ninf (l : List JsNum) (hne : l ≠ [])
    (h : ∀ x ∈ l, x ≠ .ninf) : jsMaxList l ≠ .ninf :=
  foldl_max2_ne_ninf l .ninf hne h

theorem parseIntOfNum_natCast (n : ℕ) :
    (JsNum.q (n : ℚ)).parseIntOfNum = .q (n : ℚ) := by
  simp [JsNum.parseIntOfNum, ratTrunc_natCast]

theorem JsNum.orElse_eq (a b : JsNum) :
    a.orElse b = if a.truthy = true then a else b := rfl

theorem clearAll_restores_core (st : HotelState)
    (hmax : st.maxPrice
      = jsMaxList (st.rooms.map (fun r => parsePrice r.price_per_night)))
    (hminsz : st.minRoomSize
      = jsMinList (st.rooms.map (fun r => parseSize r.room_size)))
    (hmaxsz : st.maxRoomSize
      = jsMaxList (st.rooms.map (fun r => parseSize r.room_size))) :
    (clearAllFilters st).sortedRooms = st.rooms := by
  show filterRoomsCompute { st with
    category_name := "all"
    capacity := "all"
    price_per_night := .vnum st.maxPrice
    reserved := false
    dateFilteredRoomIds := none } = st.rooms
  apply filterRoomsCompute_cleared <;> try rfl
  · -- every room passes the price-ceiling stage when the ceiling is truthy
    intro r hr htruthy
    have htr : st.maxPrice.truthy = true := htruthy
    show (parsePrice r.price_per_night).le st.maxPrice = true
    have hnan : JsNum.nan ∉ st.rooms.map (fun r => parsePrice r.price_per_night) := by
      intro hmem
      rw [hmax, jsMaxList_nan _ hmem] at htr
      exact absurd htr (by simp [JsNum.truthy])
    have hmem : parsePrice r.price_per_night
        ∈ st.rooms.map (fun r => parsePrice r.price_per_night) :=
      List.mem_map_of_mem _ hr
    rw [hmax]
    exact jsMaxList_ge _ hnan hmem
  · -- every room passes the size-range stage when both aggregates are truthy
    intro r hr hmin hmax'
    have hminT : st.minRoomSize.truthy = true := hmin
    have hmaxT : st.maxRoomSize.truthy = true := hmax'
    show ((st.minRoomSize.parseIntOfNum.orElse (.q 0)).le (parseSize r.room_size)
      && (parseSize r.room_size).le
        (st.maxRoomSize.parseIntOfNum.orElse (.q 999))) = true
    have hnan : JsNum.nan ∉ st.rooms.map (fun r => parseSize r.room_size) :=
      sizes_no_nan _
    have hmemr : parseSize r.room_size
        ∈ st.rooms.map (fun r => parseSize r.room_size) :=
      List.mem_map_of_mem _ hr
    rcases parseSize_q_nat r.room_size with ⟨n, hn⟩
    have hlow : (st.minRoomSize.parseIntOfNum.orElse (.q 0)).le
        (parseSize r.room_size) = true := by
      rw [hminsz]
      rcases jsMinList_mem (st.rooms.map (fun r => parseSize r.room_size))
        with hcase | hcase
      · rw [hcase, hn]
        simp [JsNum.parseIntOfNum, JsNum.orElse, JsNum.truthy, JsNum.le]
      · rcases sizes_q_nat _ _ hcase with ⟨m, hm⟩
        have hle : (jsMinList (st.rooms.map (fun r => parseSize r.room_size))).le
            (parseSize r.room_size) = true := jsMinList_le _ hnan hmemr
        rw [hm, parseIntOfNum_natCast, JsNum.orElse_eq]
        by_cases htm : (JsNum.q (m : ℚ)).truthy = true
        · rw [if_pos htm, ← hm]
          exact hle
        · rw [if_neg htm, hn]
          simp [JsNum.le]
    have hup : (parseSize r.room_size).le
        (st.maxRoomSize.parseIntOfNum.orElse (.q 999)) = true := by
      rw [hmaxsz] at hmaxT ⊢
      rcases jsMaxList_mem (st.rooms.map (fun r => parseSize r.room_size))
        with hcase | hcase
      · exfalso
        have hnonempty : st.rooms.map (fun r => parseSize r.room_size) ≠ [] := by
          intro h
          rw [h] at hmemr
          exact List.not_mem_nil _ hmemr
        exact jsMaxList_ne_ninf _ hnonempty (sizes_no_ninf _) hcase
      · rcases sizes_q_nat _ _ hcase with ⟨M, hM⟩
        have hle : (parseSize r.room_size).le
            (jsMaxList (st.rooms.map (fun r => parseSize r.room_size))) = true :=
          jsMaxList_ge _ hnan hmemr
        rw [hM] at hmaxT
        rw [hM, parseIntOfNum_natCast, JsNum.orElse_eq]
        rw [if_pos hmaxT, ← hM]
        exact hle
    rw [hlow, hup]
    rfl

theorem prices_no_nan (rooms : List Room)
    (hq : ∀ r ∈ rooms, parsePrice r.price_per_night ≠ .nan) :
    JsNum.nan ∉ rooms.map (fun r => parsePrice r.price_per_night) := by
  intro hmem
  rcases List.mem_map.mp hmem with ⟨r, hr, hparse⟩
  exact hq r hr hparse

theorem jsMinList_ne_nan (l : List JsNum) (hnan : JsNum.nan ∉ l) :
    jsMinList l ≠ .nan := by
  rcases jsMinList_mem l with h | h
  · rw [h]; exact fun hc => JsNum.noConfusion hc
  · exact fun hc => hnan (hc ▸ h)

theorem jsMaxList_ne_nan (l : List JsNum) (hnan : JsNum.nan ∉ l) :
    jsMaxList l ≠ .nan := by
  rcases jsMaxList_mem l with h | h
  · rw [h]; exact fun hc => JsNum.noConfusion hc
  · exact fun hc => hnan (hc ▸ h)

theorem jsMinList_le_jsMaxList (l : List JsNum) (hne : l ≠ [])
    (hnan : JsNum.nan ∉ l) : (jsMinList l).le (jsMaxList l) = true := by
  cases l with
  | nil => exact absurd rfl hne
  | cons b t =>
    exact JsNum.le_trans (jsMinList_le _ hnan (List.mem_cons_self b t))
      (jsMaxList_ge _ hnan (List.mem_cons_self b t))

theorem reachable_price_in_range (rooms : List Room) (hne : rooms ≠ [])
    (hq : ∀ r ∈ rooms, parsePrice r.price_per_night ≠ .nan)
    {st : HotelState} (h : Reachable (initState rooms) st) :
    (initState rooms).minPrice.le st.price_per_night.parseFloatOf = true ∧
    st.price_per_night.parseFloatOf.le (initState rooms).maxPrice = true := by
  have hnan : JsNum.nan ∉ rooms.map (fun r => parsePrice r.price_per_night) :=
    prices_no_nan rooms hq
  have hlne : rooms.map (fun r => parsePrice r.price_per_night) ≠ [] := by
    intro hl
    exact hne (List.map_eq_nil_iff.mp hl)
  have hminmax : ((initState rooms).minPrice).le ((initState rooms).maxPrice) = true :=
    jsMinList_le_jsMaxList _ hlne hnan
  have hmaxnan : (initState rooms).maxPrice ≠ .nan := jsMaxList_ne_nan _ hnan
  induction h with
  | refl => exact ⟨hminmax, JsNum.le_refl _ hmaxnan⟩
  | @tail stm stc hr hstep ih =>
    cases hstep with
    | category s => exact ih
    | capacity s => exact ih
    | price s hlo hhi =>
      have hframe := reachable_frame hr
      constructor
      · show (initState rooms).minPrice.le (jsParseFloat s) = true
        rw [← hframe.2.2.1]
        exact hlo
      · show (jsParseFloat s).le (initState rooms).maxPrice = true
        rw [← hframe.2.1]
        exact hhi
    | availToggle b => exact ih
    | overlay ids => exact ih
    | clear =>
      have hframe := reachable_frame hr
      constructor
      · show (initState rooms).minPrice.le stm.maxPrice = true
        rw [hframe.2.1]
        exact hminmax
      · show stm.maxPrice.le (initState rooms).maxPrice = true
        rw [hframe.2.1]
        exact JsNum.le_refl _ hmaxnan

/-- C5: for every filter state (any category, capacity, price ceiling,
availability toggle and overlay), the recomputed visible-rooms list is a
sublist — in particular a subset, in original order — of the full catalog:
no room is fabricated and no room appears that is not in the catalog. -/
theorem c5_visible_subset_of_catalog (st : HotelState) :
    (filterRoomsCompute st).Sublist st.rooms := by
  rw [filterRoomsCompute_eq_filter]
  exact List.filter_sublist _

/-- C4: whenever the date-availability overlay is present, the recomputed
visible list contains no room whose identifier is outside the overlay set,
regardless of the other predicate settings. -/
theorem c4_overlay_restricts (st : HotelState) (ids : List ℤ)
    (hov : st.dateFilteredRoomIds = some ids) :
    ∀ r ∈ filterRoomsCompute st, r.id ∈ ids := by
  intro r hr
  rw [filterRoomsCompute_eq_filter] at hr
  have hpred := List.of_mem_filter hr
  unfold codeFilterPred at hpred
  rw [hov] at hpred
  have := (Bool.and_eq_true_iff.mp
    (Bool.and_eq_true_iff.mp
      (Bool.and_eq_true_iff.mp
        (Bool.and_eq_true_iff.mp
          (Bool.and_eq_true_iff.mp hpred).1).1).1).1).1
  exact List.mem_of_elem_eq_true this

/-- Concrete two-room catalog used by the witnesses: the spec's own example
rooms (a Deluxe for 2 at 1,500 of size 30, a reserved Standard for 4 at 800
of size 40). -/
def wRoom1 : Room := ⟨1, "Deluxe", .q 2, "1,500", "30", false, false⟩

/-- Second witness room; see `wRoom1`. -/
def wRoom2 : Room := ⟨2, "Standard", .q 4, "800", "40", true, false⟩

/-- Witness state: the post-fetch state over the two witness rooms. -/
def wState : HotelState := initState [wRoom1, wRoom2]

theorem c4_witness : wRoom1.id ∈ [(1 : ℤ)] :=
  c4_overlay_restricts (filterByDateAvailability (some [1]) wState) [1] rfl
    wRoom1 (by decide)

/-- C3: after any sequence of filter-state mutations, `clearAllFilters`
restores category to "all", capacity to "all", the price ceiling to the
catalog maximum, availability-only to false and the overlay to absent, and
the recomputed visible list is the full original catalog in original
order. -/
theorem c3_clear_restores (rooms : List Room) (st : HotelState)
    (h : Reachable (initState rooms) st) :
    (clearAllFilters st).category_name = "all" ∧
    (clearAllFilters st).capacity = "all" ∧
    (clearAllFilters st).price_per_night = .vnum (initState rooms).maxPrice ∧
    (clearAllFilters st).reserved = false ∧
    (clearAllFilters st).dateFilteredRoomIds = none ∧
    (clearAllFilters st).sortedRooms = rooms := by
  have hframe := reachable_frame h
  refine ⟨rfl, rfl, ?_, rfl, rfl, ?_⟩
  · show JsVal.vnum st.maxPrice = .vnum (initState rooms).maxPrice
    rw [hframe.2.1]
  · have hcore := clearAll_restores_core st ?_ ?_ ?_
    · rw [hcore, hframe.1]
      rfl
    · rw [hframe.2.1, hframe.1]
      rfl
    · rw [hframe.2.2.2.2, hframe.1]
      rfl
    · rw [hframe.2.2.2.1, hframe.1]
      rfl

theorem c3_witness :
    (clearAllFilters wState).category_name = "all" ∧
    (clearAllFilters wState).capacity = "all" ∧
    (clearAllFilters wState).price_per_night = .vnum (initState [wRoom1, wRoom2]).maxPrice ∧
    (clearAllFilters wState).reserved = false ∧
    (clearAllFilters wState).dateFilteredRoomIds = none ∧
    (clearAllFilters wState).sortedRooms = [wRoom1, wRoom2] :=
  c3_clear_restores [wRoom1, wRoom2] wState Relation.ReflTransGen.refl

/-- C6: in every state reachable from the post-fetch initial state by UI
interactions (handleChange mutations, overlay changes, clearAllFilters),
the numeric value of the price ceiling lies within the interval from the
minimum to the maximum observed catalog price, both computed once from the
initial fetch; stated for a non-empty catalog whose prices all parse. -/
theorem c6_price_ceiling_in_range (rooms : List Room) (hne : rooms ≠ [])
    (hq : ∀ r ∈ rooms, parsePrice r.price_per_night ≠ .nan)
    (st : HotelState) (h : Reachable (initState rooms) st) :
    (initState rooms).minPrice.le st.price_per_night.parseFloatOf = true ∧
    st.price_per_night.parseFloatOf.le (initState rooms).maxPrice = true :=
  reachable_price_in_range rooms hne hq h

theorem c6_witness :
    (initState [wRoom1, wRoom2]).minPrice.le
      wState.price_per_night.parseFloatOf = true ∧
    wState.price_per_night.parseFloatOf.le
      (initState [wRoom1, wRoom2]).maxPrice = true :=
  c6_price_ceiling_in_range [wRoom1, wRoom2] (by decide) (by decide)
    wState Relation.ReflTransGen.refl

/-- A room whose price string has no parsable numeric prefix. -/
def c1Room : Room := ⟨3, "Suite", .q 2, "abc", "20", false, false⟩

/-- C1 counterexample: with a truthy price ceiling, the malformed-price room
parses to NaN (not 0) and is excluded from the recomputed visible list by
the malformation alone — under the spec's treat-as-0 policy it would have
passed, since 0 is below the 1000 ceiling. -/
theorem c1_counterexample :
    parsePrice c1Room.price_per_night = .nan ∧
    parsePrice c1Room.price_per_night ≠ .q 0 ∧
    (JsNum.q 0).le (jsParseFloat "1000") = true ∧
    c1Room ∈ (setPriceCeiling "1000" (initState [c1Room, wRoom2])).rooms ∧
    c1Room ∉ (setPriceCeiling "1000" (initState [c1Room, wRoom2])).sortedRooms := by
  decide

/-- C1 amended: a size string with no digits parses to 0, but an unparsable
price string parses to NaN rather than 0: NaN propagates into the price
aggregates, and since NaN compares false, a room with an unparsable price is
excluded from the recomputed visible list whenever the price filter is
active (truthy ceiling). -/
theorem c1_amended :
    (∀ s : String, s.data.filter Char.isDigit = [] → parseSize s = .q 0) ∧
    (∀ st : HotelState, ∀ r ∈ st.rooms,
      parsePrice r.price_per_night = .nan → st.price_per_night.truthy = true →
      r ∉ filterRoomsCompute st) ∧
    (∀ rooms : List Room, ∀ r ∈ rooms, parsePrice r.price_per_night = .nan →
      (initState rooms).maxPrice = .nan) := by
  refine ⟨?_, ?_, ?_⟩
  · intro s hs
    rw [parseSize_eq, hs]
    rfl
  · intro st r hr hnan htruthy hmem
    rw [filterRoomsCompute_eq_filter] at hmem
    have hpred := List.of_mem_filter hmem
    unfold codeFilterPred at hpred
    have hprice := (Bool.and_eq_true_iff.mp
      (Bool.and_eq_true_iff.mp (Bool.and_eq_true_iff.mp hpred).1).1).2
    rw [if_pos htruthy, hnan] at hprice
    cases hpf : st.price_per_night.parseFloatOf <;>
      rw [hpf] at hprice <;> exact Bool.noConfusion hprice
  · intro rooms r hr hnan
    show jsMaxList (rooms.map (fun r => parsePrice r.price_per_night)) = .nan
    apply jsMaxList_nan
    rw [← hnan]
    exact List.mem_map_of_mem _ hr

theorem c1_amended_witness :
    parseSize "xyz" = .q 0 ∧
    c1Room ∉ filterRoomsCompute (setPriceCeiling "1000" (initState [c1Room, wRoom2])) ∧
    (initState [c1Room, wRoom2]).maxPrice = .nan :=
  ⟨c1_amended.1 "xyz" (by decide),
   c1_amended.2.1 _ c1Room (by decide) (by decide) (by decide),
   c1_amended.2.2 _ c1Room (by decide) (by decide)⟩

/-- A filter state whose price ceiling is the number 0 (falsy in JS). -/
def c2St : HotelState := { initState [wRoom2] with price_per_night := .vnum (.q 0) }

/-- C2 counterexample: with a price ceiling of 0 the code skips the price
stage entirely, so the room is visible, while the spec's unconditional
price sub-predicate (parsed price ≤ ceiling) evaluates false — the visible
list is not the set satisfying the spec's four-sub-predicate conjunction. -/
theorem c2_counterexample :
    wRoom2 ∈ filterRoomsCompute c2St ∧ specFilterPred c2St wRoom2 = false := by
  decide

/-- C2 amended: a room of the catalog appears in the recomputed visible list
iff it satisfies the conjunction of the guarded sub-predicates the code
actually applies: overlay membership when an overlay is present, category
(all or exact match), capacity (skipped when the selector is empty or
"all"), price (skipped when the ceiling is falsy), room size within the
aggregate range when both size aggregates are truthy, and not-reserved when
the availability toggle is on. -/
theorem c2_amended (st : HotelState) (r : Room) (hr : r ∈ st.rooms) :
    r ∈ filterRoomsCompute st ↔ codeFilterPred st r = true := by
  rw [filterRoomsCompute_eq_filter, List.mem_filter]
  simp [hr]

theorem c2_witness :
    wRoom1 ∈ filterRoomsCompute wState ↔ codeFilterPred wState wRoom1 = true :=
  c2_amended wState wRoom1 (by decide)

/-- C7 counterexample: with the current date at timestamp 10, a query with
check-in 5 (in the past) and check-out 6 is not rejected locally — the
handler proceeds to the network call, although the claim demands a local
rejection for any check-in earlier than the current date. -/
theorem c7_counterexample :
    (5 : ℤ) < 10 ∧
    (checkRoomAvailability wState (some 5) (some 6)).1 = .networkCall := by
  decide

/-- C7 amended: a query with a missing date or whose check-out is not
strictly after its check-in is rejected locally before any network call and
leaves the component state — including the overlay — unchanged; a query
whose check-in lies in the past but whose check-out is after its check-in
is not rejected by the handler and proceeds to the network call (past
check-ins are constrained only by the date input's min attribute). -/
theorem c7_amended (st : HotelState) (ci co : Option ℤ) :
    ((ci = none ∨ co = none ∨ (∃ a b, ci = some a ∧ co = some b ∧ b ≤ a)) →
      (checkRoomAvailability st ci co).1 ≠ .networkCall ∧
      (checkRoomAvailability st ci co).2 = st) ∧
    (∀ a b, ci = some a → co = some b → a < b →
      (checkRoomAvailability st ci co).1 = .networkCall) := by
  constructor
  · intro hrej
    cases ci with
    | none => exact ⟨fun h => AvailOutcome.noConfusion h, rfl⟩
    | some a =>
      cases co with
      | none => exact ⟨fun h => AvailOutcome.noConfusion h, rfl⟩
      | some b =>
        rcases hrej with h | h | ⟨a2, b2, ha2, hb2, hord⟩
        · exact Option.noConfusion h
        · exact Option.noConfusion h
        · cases Option.some.inj ha2
          cases Option.some.inj hb2
          simp [checkRoomAvailability, hord]
  · intro a b ha hb hlt
    subst ha
    subst hb
    simp [checkRoomAvailability, not_le.mpr hlt]

theorem c7_witness :
    ((checkRoomAvailability wState (some 5) (some 4)).1 ≠ .networkCall ∧
      (checkRoomAvailability wState (some 5) (some 4)).2 = wState) ∧
    (checkRoomAvailability wState (some 5) (some 6)).1 = .networkCall :=
  ⟨(c7_amended wState (some 5) (some 4)).1
      (Or.inr (Or.inr ⟨5, 4, rfl, rfl, by decide⟩)),
    (c7_amended wState (some 5) (some 6)).2 5 6 rfl rfl (by decide)⟩

/-- C8 counterexample: a two-segment token whose second segment decodes to a
payload with exp 999 is accepted (returns false) at current time 100, though
the claim demands true for anything that is not a three-segment JWT. -/
theorem c8_counterexample :
    numSegments "h.eyJleHAiOjk5OX0" = 2 ∧
    isTokenExpired decodeEnv 100 (some "h.eyJleHAiOjk5OX0") = false := by
  decide

/-- C8 amended: `isTokenExpired` returns true exactly when the token is
absent or empty, or the second dot-separated segment is missing or fails to
decode, or the decoded payload's exp is less than the current time under JS
comparison (with an absent exp comparing false, hence fail-open).  The
segment count is otherwise irrelevant: any token with a decodable second
segment and exp not below the current time returns false.  The function is
total (never throws) by construction. -/
theorem c8_amended (decode : String → Option JwtPayload) (t : ℚ)
    (token : Option String) :
    isTokenExpired decode t token = true ↔
      (token = none ∨ token = some "" ∨
        (∃ s, token = some s ∧ s ≠ "" ∧
          ((tokenSegments s).get? 1 = none ∨
            (∃ seg, (tokenSegments s).get? 1 = some seg ∧ decode seg = none) ∨
            (∃ seg p, (tokenSegments s).get? 1 = some seg ∧
              decode seg = some p ∧ jsUndefLt p.exp t = true)))) := by
  cases token with
  | none => simp [isTokenExpired]
  | some s =>
    by_cases hs : s = ""
    · subst hs
      simp [isTokenExpired]
    · simp only [isTokenExpired, if_neg hs]
      split
      · rename_i hseg
        constructor
        · intro _
          exact Or.inr (Or.inr ⟨s, rfl, hs, Or.inl hseg⟩)
        · intro _
          rfl
      · rename_i seg hseg
        split
        · rename_i hdec
          constructor
          · intro _
            exact Or.inr (Or.inr ⟨s, rfl, hs, Or.inr (Or.inl ⟨seg, hseg, hdec⟩)⟩)
          · intro _
            rfl
        · rename_i p hdec
          constructor
          · intro h
            exact Or.inr (Or.inr ⟨s, rfl, hs,
              Or.inr (Or.inr ⟨seg, p, hseg, hdec, h⟩)⟩)
          · rintro (hnone | hflat | ⟨s2, hss, _, hcase⟩)
            · exact Option.noConfusion hnone
            · exact absurd (Option.some.inj hflat) hs
            · cases Option.some.inj hss
              rcases hcase with hnone | ⟨seg2, hseg2, hdec2⟩ |
                  ⟨seg2, p2, hseg2, hdec2, hlt⟩
              · rw [hseg] at hnone
                exact Option.noConfusion hnone
              · rw [hseg] at hseg2
                cases Option.some.inj hseg2
                rw [hdec] at hdec2
                exact Option.noConfusion hdec2
              · rw [hseg] at hseg2
                cases Option.some.inj hseg2
                rw [hdec] at hdec2
                cases Option.some.inj hdec2
                exact hlt

/-- C9: `handleBook(id)` sets `is_booked` to true on the catalog rooms whose
identifier equals `id` and changes nothing else: every other field of every
room is preserved, rooms with a different identifier are untouched, all
filter-state fields and the overlay are unchanged, and the membership (and
order) of the currently visible list is unchanged — no recomputation is
triggered.  The source's in-place mutation of shared room objects appears
here as the same per-object update applied to both aliasing lists. -/
theorem c9_handleBook_frame (st : HotelState) (id : ℤ) :
    List.Forall₂ (fun r r' =>
      r'.id = r.id ∧ r'.category_name = r.category_name ∧
      r'.capacity = r.capacity ∧ r'.price_per_night = r.price_per_night ∧
      r'.room_size = r.room_size ∧ r'.featured = r.featured ∧
      r'.is_booked = (if r.id = id then true else r.is_booked))
      st.rooms (handleBook id st).rooms ∧
    (handleBook id st).sortedRooms.map Room.id = st.sortedRooms.map Room.id ∧
    (handleBook id st).category_name = st.category_name ∧
    (handleBook id st).capacity = st.capacity ∧
    (handleBook id st).price_per_night = st.price_per_night ∧
    (handleBook id st).reserved = st.reserved ∧
    (handleBook id st).searchKey = st.searchKey ∧
    (handleBook id st).dateFilteredRoomIds = st.dateFilteredRoomIds ∧
    (handleBook id st).maxPrice = st.maxPrice ∧
    (handleBook id st).minPrice = st.minPrice ∧
    (handleBook id st).maxRoomSize = st.maxRoomSize ∧
    (handleBook id st).minRoomSize = st.minRoomSize ∧
    (handleBook id st).checkedInRooms = st.checkedInRooms ∧
    (handleBook id st).filteredCheckedInRooms = st.filteredCheckedInRooms := by
  refine ⟨?_, ?_, rfl, rfl, rfl, rfl, rfl, rfl, rfl, rfl, rfl, rfl, rfl, rfl⟩
  · show List.Forall₂ _ st.rooms (st.rooms.map (bookRoom id))
    rw [List.forall₂_map_right_iff, List.forall₂_same]
    intro r _
    unfold bookRoom
    by_cases h : r.id = id <;> simp [h]
  · show (st.sortedRooms.map (bookRoom id)).map Room.id
      = st.sortedRooms.map Room.id
    rw [List.map_map]
    apply List.map_congr_left
    intro r _
    show (bookRoom id r).id = r.id
    unfold bookRoom
    by_cases h : r.id = id <;> simp [h]

/-- C10: a non-empty search key recomputes the filtered checked-in list from
the previous filtered list (so each successive non-empty key yields a
sublist of the previous result — monotonically shrinking), and an empty
search key restores the full checked-in list. -/
theorem c10_search_monotone (st : HotelState) (key : String) :
    (key ≠ "" → (handleSearchKey key st).filteredCheckedInRooms.Sublist
      st.filteredCheckedInRooms) ∧
    (key = "" → (handleSearchKey key st).filteredCheckedInRooms
      = st.checkedInRooms) := by
  constructor
  · intro hk
    show (filterCheckedInRooms { st with searchKey := key }).filteredCheckedInRooms.Sublist
      st.filteredCheckedInRooms
    unfold filterCheckedInRooms
    rw [if_pos hk]
    exact List.filter_sublist _
  · intro hk
    subst hk
    rfl

/-- A checked-in-rooms fixture for the C10 witness. -/
def wCheckedState : HotelState :=
  { wState with
    checkedInRooms := [⟨1, "deluxe-room-1"⟩, ⟨2, "standard-room-2"⟩]
    filteredCheckedInRooms := [⟨1, "deluxe-room-1"⟩, ⟨2, "standard-room-2"⟩] }

theorem c10_witness :
    (handleSearchKey "deluxe" wCheckedState).filteredCheckedInRooms.Sublist
      wCheckedState.filteredCheckedInRooms ∧
    (handleSearchKey "" wCheckedState).filteredCheckedInRooms
      = wCheckedState.checkedInRooms :=
  ⟨(c10_search_monotone wCheckedState "deluxe").1 (by decide),
    (c10_search_monotone wCheckedState "").2 rfl⟩
